import Mathlib

/-
Verification of the route-planning core of the Daryn map application
(source: src/app/index.tsx).

The TypeScript source is shallowly embedded below.  Numbers that the
source manipulates as JS doubles are modelled as rationals (ℚ); the
claims under study only involve exact arithmetic (comparisons, min/max,
rounding to integers, linear interpolation), so ℚ is a faithful carrier.
Network responses (OSRM, Gemini) are modelled as explicit inputs.
-/

namespace Daryn

/-! ### Data model (src/app/index.tsx, "Types" section) -/

/-- Embeds `type Coord` (lat/lon in decimal degrees). -/
structure Coord where
  lat : ℚ
  lon : ℚ
deriving DecidableEq

/-- Embeds `type XY` (latitude/longitude). -/
structure XY where
  latitude : ℚ
  longitude : ℚ
deriving DecidableEq

/-- Maneuver part of `OSRMStep` (`location`, `type`, optional `modifier`).
`location` is a GeoJSON `[lon, lat]` pair. -/
structure Maneuver where
  location : ℚ × ℚ
  type : String
  modifier : Option String
deriving DecidableEq

/-- Embeds `type OSRMStep` (the fields read by the app; the per-step `geometry`
is never read by the embedded logic and is omitted). -/
structure OSRMStep where
  distance : ℚ
  duration : ℚ
  name : String
  maneuver : Maneuver
deriving DecidableEq

/-- Embeds `type OSRMLeg`. -/
structure OSRMLeg where
  distance : ℚ
  duration : ℚ
  summary : String
  steps : List OSRMStep
deriving DecidableEq

/-- Embeds `type OSRMRoute`.  Here `geometry` is the list of GeoJSON `[lon, lat]`
coordinate pairs (`geometry.coordinates` in the source); `weight` and
`weight_name` are never read by the app logic and are omitted. -/
structure OSRMRoute where
  geometry : List (ℚ × ℚ)
  distance : ℚ
  duration : ℚ
  legs : List OSRMLeg
deriving DecidableEq

/-- Embeds `type TurnNode`. -/
structure TurnNode where
  id : String
  coordinate : XY
  street : String
  maneuverType : String
  modifier : Option String
  stepDistance : ℚ
  stepDuration : ℚ
  routeIndex : ℕ
deriving DecidableEq

/-- Embeds `type RouteView`. -/
structure RouteView where
  id : String
  index : ℕ
  coords : List XY
  distance : ℚ
  duration : ℚ
  color : String
  isPrimary : Bool
  turnNodes : List TurnNode
deriving DecidableEq

/-- Embeds `type RouteMarker`. -/
structure RouteMarker where
  id : String
  coordinate : XY
  coveredDistance : ℚ
  remainDistance : ℚ
  remainDuration : ℚ
deriving DecidableEq

/-! ### Utils -/

/-- Embeds `const toXY`: swaps a GeoJSON `[lon, lat]` pair into an `XY`. -/
def toXY (coord : ℚ × ℚ) : XY := ⟨coord.2, coord.1⟩

/-- Embeds `const COLORS`. -/
def COLORS : List String :=
  ["#0A84FF", "#32D74B", "#FF9F0A", "#5E5CE6", "#64D2FF"]

/-- JS `Math.round x = ⌊x + 1/2⌋` (round half toward +∞). -/
def jsRound (x : ℚ) : ℤ := ⌊x + 1 / 2⌋

/-- JS `x.toFixed(3)` rounds to the nearest multiple of `1/1000`
(ECMA picks the larger candidate on a tie, i.e. half toward +∞); we keep
the scaled integer `⌊1000 x + 1/2⌋`, which determines the printed string. -/
def toFixed3 (x : ℚ) : ℤ := ⌊x * 1000 + 1 / 2⌋

/-- The components of the signature string built by `sigForRoute`.
The source joins them as
`"{dist}|{dur}|{lon0},{lat0}|{lonN},{latN}|{len}"`; since the rendered
components never contain the separator, two signature strings are equal
iff the component tuples are, so we keep the tuple. -/
abbrev Sig := ℤ × ℤ × Option (ℤ × ℤ) × Option (ℤ × ℤ) × ℕ

/-- Embeds `const sigForRoute` — rounded distance, rounded duration,
first and last geometry points rounded to three decimals (`undefined`
when the geometry is empty, modelled as `none`), and vertex count. -/
def sigForRoute (r : OSRMRoute) : Sig :=
  (jsRound r.distance, jsRound r.duration,
   r.geometry.head?.map (fun p => (toFixed3 p.1, toFixed3 p.2)),
   r.geometry.getLast?.map (fun p => (toFixed3 p.1, toFixed3 p.2)),
   r.geometry.length)

/-! ### GeometrySampler (`haversine`, `sampleEveryMeters`)

`haversine` is transcendental (sin/cos/asin over doubles), so the
sampler is embedded parametrically in the segment-distance function
`dist`; every statement about it quantifies over (or hypothesises) the
distances the source would compute. -/

/-- The cumulative-distance array `cum` of `sampleEveryMeters`:
`cum[0] = 0` and `cum[i] = cum[i-1] + dist(poly[i-1], poly[i])`. -/
def cumulativeDistances (dist : XY → XY → ℚ) (poly : List XY) : List ℚ :=
  (List.zipWith dist poly poly.tail).scanl (· + ·) 0

/-- The inner `while (idx < poly.length && cum[idx] < target) idx++`
loop (`cum` has the same length as `poly`). -/
def advanceIdx (cum : List ℚ) (target : ℚ) (idx : ℕ) : ℕ :=
  if h : idx < cum.length then
    if cum[idx] < target then advanceIdx cum target (idx + 1) else idx
  else idx
termination_by cum.length - idx
decreasing_by omega

/-- The main `while (target < total && out.length < maxCount)` loop of
`sampleEveryMeters`.  The fuel argument is `maxCount - out.length`,
which decreases by one with every pushed marker, so running out of fuel
is exactly the `out.length < maxCount` bound failing. -/
def sampleLoop (poly : List XY) (cum : List ℚ) (total spacing : ℚ) :
    ℕ → ℚ → ℕ → List RouteMarker → List RouteMarker
  | 0, _, _, out => out
  | fuel + 1, target, idx0, out =>
    if target < total then
      let idx := advanceIdx cum target idx0
      if poly.length ≤ idx then out
      else
        let prev := poly.getD (idx - 1) ⟨0, 0⟩
        let next := poly.getD idx ⟨0, 0⟩
        let segLen := cum.getD idx 0 - cum.getD (idx - 1) 0
        let remainInSeg := target - cum.getD (idx - 1) 0
        let t := if 0 < segLen then remainInSeg / segLen else 0
        let lat := prev.latitude + (next.latitude - prev.latitude) * t
        let lon := prev.longitude + (next.longitude - prev.longitude) * t
        let mk : RouteMarker :=
          { id := "m-" ++ toString out.length ++ "-" ++ toString idx
            coordinate := ⟨lat, lon⟩
            coveredDistance := target
            remainDistance := total - target
            remainDuration := 0 }
        sampleLoop poly cum total spacing fuel (target + spacing) idx (out ++ [mk])
    else out

/-- The sequence of covered distances the sampling loop is expected to
emit: successive targets `t, t + s, t + 2s, …` while below `total`,
bounded by the remaining marker budget (used to state the sampler
claim). -/
def expectedTargets (total spacing : ℚ) : ℕ → ℚ → List ℚ
  | 0, _ => []
  | fuel + 1, target =>
    if target < total then
      target :: expectedTargets total spacing fuel (target + spacing)
    else []

/-- Embeds `const sampleEveryMeters` (defaults `spacing = 100`, `maxCount = 400`),
parametric in the segment metric `dist` (the source uses `haversine`). -/
def sampleEveryMeters (dist : XY → XY → ℚ) (poly : List XY)
    (spacing : ℚ) (maxCount : ℕ) : List RouteMarker :=
  if poly.length = 0 then []
  else
    let cum := cumulativeDistances dist poly
    let total := cum.getLastD 0
    if total = 0 then []
    else sampleLoop poly cum total spacing maxCount spacing 1 []

/-! ### `buildInstruction` and `mapToViews` -/

/-- Embeds `const buildInstruction` (JS `s.maneuver.modifier ?`
treats the empty string as falsy, hence the extra emptiness test). -/
def buildInstruction (s : OSRMStep) : String :=
  let t := s.maneuver.type
  let m := match s.maneuver.modifier with
    | some md => if md = "" then "" else ", " ++ md
    | none => ""
  if t = "arrive" then "Прибытие"
  else if t = "depart" then "Начало движения"
  else if t = "turn" then "Поворот" ++ m
  else if t = "continue" then "Двигайтесь прямо" ++ m
  else if t = "merge" then "Перестроение" ++ m
  else if t = "fork" then "Развилка" ++ m
  else if t = "roundabout" ∨ t = "rotary" then "Кольцевое движение"
  else if t = "end of road" then "Конец дороги" ++ m
  else t ++ m

/-- The `{i, d}` pairs `list.map((r, i) => ({ i, d: r.duration }))` of
`mapToViews`. -/
def durPairs (list : List OSRMRoute) : List (ℕ × ℚ) :=
  list.enum.map (fun p => (p.1, p.2.duration))

/-- Boolean order used to model `.sort((a, b) => a.d - b.d)`:
`Array.prototype.sort` is a stable sort with respect to the comparator,
so it is observationally `mergeSort` by `a.d ≤ b.d`. -/
def durLE (a b : ℕ × ℚ) : Bool := decide (a.2 ≤ b.2)

/-- Embeds `const bestIdx = list.map(...).sort((a, b) => a.d - b.d)[0]?.i ?? 0`. -/
def bestIdxOf (list : List OSRMRoute) : ℕ :=
  ((((durPairs list).mergeSort durLE).head?).map Prod.fst).getD 0

/-- One `TurnNode` of `mapToViews` (route index `idx`, leg `legIndex`,
step `stepIndex`).  JS `s.name ||` treats `""` as falsy. -/
def toTurnNode (idx legIndex stepIndex : ℕ) (s : OSRMStep) : TurnNode :=
  { id := "r" ++ toString idx ++ "-l" ++ toString legIndex ++ "-s" ++ toString stepIndex
    coordinate := toXY s.maneuver.location
    street := if s.name = "" then "Без названия" else s.name
    maneuverType := buildInstruction s
    modifier := s.maneuver.modifier
    stepDistance := s.distance
    stepDuration := s.duration
    routeIndex := idx }

/-- The body of `list.slice(0, 5).map((r, idx) => ...)` in `mapToViews`. -/
def toRouteView (bestIdx : ℕ) (p : ℕ × OSRMRoute) : RouteView :=
  let idx := p.1
  let r := p.2
  { id := "route-" ++ toString idx
    index := idx
    coords := r.geometry.map toXY
    distance := r.distance
    duration := r.duration
    color := COLORS.getD (idx % COLORS.length) ""
    isPrimary := idx == bestIdx
    turnNodes := (r.legs.enum.map (fun lp =>
      lp.2.steps.enum.map (fun sp => toTurnNode idx lp.1 sp.1 sp.2))).flatten }

/-- Embeds `const mapToViews`, returning the pair `{ mapped, bestIdx }`. -/
def mapToViews (list : List OSRMRoute) : List RouteView × ℕ :=
  let bestIdx := bestIdxOf list
  ((list.take 5).enum.map (toRouteView bestIdx), bestIdx)

/-! ### `makeViaCandidates` -/

/-- Embeds `const makeViaCandidates` — twelve via points around
the midpoint of `a`/`b`: four cardinal, four diagonal, and four
1.5×-magnitude cardinal variants. -/
def makeViaCandidates (a b : Coord) : List Coord :=
  let midLat := (a.lat + b.lat) / 2
  let midLon := (a.lon + b.lon) / 2
  let latSpan := max (5 / 1000) |a.lat - b.lat|
  let lonSpan := max (5 / 1000) |a.lon - b.lon|
  let dLat := min (3 / 100) (latSpan * (6 / 10))
  let dLon := min (3 / 100) (lonSpan * (6 / 10))
  [ ⟨midLat + dLat, midLon⟩,
    ⟨midLat - dLat, midLon⟩,
    ⟨midLat, midLon + dLon⟩,
    ⟨midLat, midLon - dLon⟩,
    ⟨midLat + dLat, midLon + dLon⟩,
    ⟨midLat - dLat, midLon + dLon⟩,
    ⟨midLat + dLat, midLon - dLon⟩,
    ⟨midLat - dLat, midLon - dLon⟩,
    ⟨midLat + dLat * (3 / 2), midLon⟩,
    ⟨midLat, midLon + dLon * (3 / 2)⟩,
    ⟨midLat - dLat * (3 / 2), midLon⟩,
    ⟨midLat, midLon - dLon * (3 / 2)⟩ ]

/-! ### `fetchFiveRoutes` / `fetchRoutes`

The network is modelled as explicit response values: the Stage-1
request either fails with an error message (HTTP failure branches all
`throw new Error(...)`) or yields a parsed body (result code plus route
list), and each Stage-2/Stage-3 via request either fails (`!res.ok`,
timeout — all swallowed by `catch {}` / `continue`) or yields a body. -/

/-- Outcome of the Stage-1 (alternatives) request. -/
inductive S1Result where
  | err (msg : String)
  | resp (code : String) (routes : List OSRMRoute)
deriving DecidableEq

/-- Outcome of one via request in Stage 2 or Stage 3. -/
inductive ViaResp where
  | fail
  | resp (code : String) (routes : List OSRMRoute)
deriving DecidableEq

/-- The candidate a via response contributes: `data.routes[0]` when
`res.ok`, `data.code === "Ok"` and `data.routes` is non-empty
(`head?` of `[]` is `none`, covering the emptiness test). -/
def viaCandidate : ViaResp → Option OSRMRoute
  | .fail => none
  | .resp code routes => if code = "Ok" then routes.head? else none

/-- The `out` / `seen` accumulator of `fetchFiveRoutes` (`seen` is a
`Set<string>`; insertion order is irrelevant, we keep a list). -/
structure FetchAcc where
  out : List OSRMRoute
  seen : List Sig

/-- Stage-1 inner loop:
`for (r of data.routes) { if (!seen.has(k)) { add; push; if (out.length >= 5) break; } }` -/
def stage1Loop : List OSRMRoute → FetchAcc → FetchAcc
  | [], acc => acc
  | r :: rest, acc =>
    if sigForRoute r ∈ acc.seen then stage1Loop rest acc
    else
      let acc2 : FetchAcc := ⟨acc.out ++ [r], acc.seen ++ [sigForRoute r]⟩
      if 5 ≤ acc2.out.length then acc2 else stage1Loop rest acc2

/-- Stage-2/Stage-3 loop over via responses:
`for (via of vias) { if (out.length >= 5) break; ...accept first route if new... }` -/
def viaLoop : List ViaResp → FetchAcc → FetchAcc
  | [], acc => acc
  | v :: rest, acc =>
    if 5 ≤ acc.out.length then acc
    else
      match viaCandidate v with
      | none => viaLoop rest acc
      | some r =>
        if sigForRoute r ∈ acc.seen then viaLoop rest acc
        else viaLoop rest ⟨acc.out ++ [r], acc.seen ++ [sigForRoute r]⟩

/-- The routes Stage 1 iterates over: the parsed list when the request
succeeded with `data.code === "Ok" && data.routes?.length`, else none. -/
def stage1Routes : S1Result → List OSRMRoute
  | .err _ => []
  | .resp code routes => if code = "Ok" ∧ routes ≠ [] then routes else []

/-- Embeds `const fetchFiveRoutes`, as a function of the
three groups of responses.  The second component is the `errorText`
state set by the Stage-1 `catch` (`setErrorText((e as Error)?.message)`);
Stage-2/3 failures are swallowed and never touch it. -/
def fetchFiveRoutes (s1 : S1Result) (v2 v3 : List ViaResp) :
    List OSRMRoute × Option String :=
  let errText : Option String :=
    match s1 with
    | .err msg => some msg
    | .resp _ _ => none
  let acc1 := stage1Loop (stage1Routes s1) ⟨[], []⟩
  if 5 ≤ acc1.out.length then (acc1.out.take 5, errText)
  else
    let acc2 := viaLoop v2 acc1
    let acc3 := if acc2.out.length < 5 then viaLoop v3 acc2 else acc2
    (acc3.out.take 5, errText)

/-- The stream of candidates in arrival order: Stage-1 routes, then the
Stage-2 and Stage-3 via candidates. -/
def fetchArrivals (s1 : S1Result) (v2 v3 : List ViaResp) : List OSRMRoute :=
  stage1Routes s1 ++ v2.filterMap viaCandidate ++ v3.filterMap viaCandidate

/-- The message of the error `fetchRoutes` throws when
`fetchFiveRoutes` returns no routes. -/
def noRouteMsg : String := "OSRM не смог построить маршрут. Попробуйте ближе к дороге."

/-- The `errorText` state after `fetchRoutes` completes: it is cleared,
set (possibly) by the Stage-1 catch inside `fetchFiveRoutes`, and then —
if the result list is empty — overwritten by the catch block of
`fetchRoutes` with the message of the freshly thrown no-route error. -/
def fetchRoutesFinalError (s1 : S1Result) (v2 v3 : List ViaResp) : Option String :=
  let res := fetchFiveRoutes s1 v2 v3
  if res.1.length = 0 then some noRouteMsg else res.2

/-! ### Selection state (`selectRouteOnly`, show-all toggle, appearance) -/

/-- The selection-related component state: `selectedRoute`,
`showAllRoutes`, `statusText`. -/
structure SelectionState where
  selectedIndex : ℕ
  showAllRoutes : Bool
  statusText : String
deriving DecidableEq

/-- Embeds `const selectRouteOnly`: sets the selected route, leaves show-all mode, updates the status line. -/
def selectRouteOnly (idx : ℕ) (st : SelectionState) : SelectionState :=
  { st with
    selectedIndex := idx
    showAllRoutes := false
    statusText := "Выбран маршрут #" ++ toString (idx + 1) }

/-- The show-all toggle button: `setShowAllRoutes((v) => !v)`. -/
def toggleShowAll (st : SelectionState) : SelectionState :=
  { st with showAllRoutes := !st.showAllRoutes }

/-- Result record of `getRouteAppearance`. -/
structure Appearance where
  mainColor : String
  mainWidth : ℕ
  outlineColor : String
  outlineWidth : ℕ
  shouldShow : Bool
  z : ℕ
deriving DecidableEq

/-- Embeds `const getRouteAppearance` (the component closes over
`showAllRoutes` and `selectedRoute`; here they are explicit arguments).
The `z` computation mirrors the two sequential `if` statements of the
source (`let z = 0; if (isSel && !isOpt) z = 1; if (isOpt) z = 2;`). -/
def getRouteAppearance (showAllRoutes : Bool) (selectedRoute : ℕ)
    (r : RouteView) : Appearance :=
  let isOpt := r.isPrimary
  let isSel := r.index == selectedRoute
  let shouldShow := if showAllRoutes then true else isSel
  let mainColor := if isSel then r.color else if isOpt then r.color else "rgba(255,255,255,0.45)"
  let mainWidth : ℕ := if isSel then 12 else if isOpt then 10 else 6
  let outlineColor := if isSel then "rgba(255,255,255,0.98)"
    else if isOpt then "rgba(255,255,255,0.9)" else "rgba(255,255,255,0.35)"
  let outlineWidth := mainWidth + 4
  let z : ℕ :=
    if showAllRoutes then
      let z0 : ℕ := 0
      let z1 := if isSel && !isOpt then 1 else z0
      if isOpt then 2 else z1
    else 2
  ⟨mainColor, mainWidth, outlineColor, outlineWidth, shouldShow, z⟩

/-- The per-route sort key of `routesSorted`
(`showAllRoutes ? (isPrimary ? 2 : (index === selectedRoute ? 1 : 0)) : (index === selectedRoute ? 2 : 0)`). -/
def zKey (showAllRoutes : Bool) (selectedRoute : ℕ) (r : RouteView) : ℕ :=
  if showAllRoutes then
    if r.isPrimary then 2 else if r.index == selectedRoute then 1 else 0
  else
    if r.index == selectedRoute then 2 else 0

/-- Embeds `routesSorted`: draw order from low `z` to high `z`
(`routes.slice().sort((a, b) => za - zb)`, a stable sort). -/
def routesSorted (routes : List RouteView) (selectedRoute : ℕ)
    (showAllRoutes : Bool) : List RouteView :=
  routes.mergeSort (fun a b =>
    decide (zKey showAllRoutes selectedRoute a ≤ zKey showAllRoutes selectedRoute b))

/-! ### AI bridge (`routesSignature`, auto-trigger effect, suggested index) -/

/-- Embeds `const routesSignature = (rs) => rs.map(r => ...).join("|")`. -/
def routesSignature (rs : List RouteView) : String :=
  String.intercalate ("|") (rs.map (fun r =>
    toString r.index ++ ":" ++ toString (jsRound r.distance) ++ ":" ++
    toString (jsRound r.duration) ++ ":" ++ toString r.turnNodes.length))

/-- The persistent `lastAiSignatureRef` cell. -/
structure AiState where
  lastSig : String
deriving DecidableEq

/-- One firing of the auto-AI `useEffect` (dependencies
`[autoAiEnabled, routes, selectedRoute]`).  `selectedRoute` re-triggers
the effect but is not read by its body.  Returns the updated ref state
and whether `callGeminiAuto` was scheduled (an outbound request). -/
def fireAuto (autoAiEnabled : Bool) (routes : List RouteView)
    (selectedRoute : ℕ) (st : AiState) : AiState × Bool :=
  if !autoAiEnabled || routes.length == 0 then (st, false)
  else
    let sig := routesSignature routes
    if sig == st.lastSig then (st, false)
    else ({ lastSig := sig }, true)

/-- Case folding for the `/i` regex flag: ASCII plus the Cyrillic
letters appearing in the pattern `маршрут`. -/
def foldChar (c : Char) : Char :=
  if 'A' ≤ c ∧ c ≤ 'Z' then Char.ofNat (c.toNat + 32)
  else if 'А' ≤ c ∧ c ≤ 'Я' then Char.ofNat (c.toNat + 32)
  else if c = 'Ё' then 'ё'
  else c

/-- JS `\s` on the characters relevant here (ASCII whitespace). -/
def isSpaceChar (c : Char) : Bool :=
  c == ' ' || c == '\t' || c == '\n' || c == '\r' || c == '\x0b' || c == '\x0c'

/-- Split a leading maximal digit run (the greedy `(\d+)`). -/
def takeDigits : List Char → List Char × List Char
  | [] => ([], [])
  | c :: rest =>
    if c.isDigit then
      let p := takeDigits rest
      (c :: p.1, p.2)
    else ([], c :: rest)

/-- Evaluates JS `Number` on a digit string. -/
def digitsToNat (ds : List Char) : ℕ :=
  ds.foldl (fun acc c => acc * 10 + (c.toNat - '0'.toNat)) 0

/-- Greedy `\s*`. -/
def dropSpaces (cs : List Char) : List Char := cs.dropWhile isSpaceChar

/-- Case-insensitively strip a literal (lower-case) pattern. -/
def stripCI : List Char → List Char → Option (List Char)
  | [], rest => some rest
  | _ :: _, [] => none
  | p :: ps, c :: rest => if foldChar c = p then stripCI ps rest else none

/-- Attempt of `/route[_\s-]?index\s*=\s*(\d+)/i` anchored at the start
of `cs`, returning the captured number.  The optional class character is
tried greedily and backtracked if `index` does not follow. -/
def matchP1At (cs : List Char) : Option ℕ :=
  match stripCI ("route".data) cs with
  | none => none
  | some rest =>
    let afterIdx : Option (List Char) :=
      match rest with
      | c :: rest2 =>
        if c == '_' || isSpaceChar c || c == '-' then
          match stripCI ("index".data) rest2 with
          | some r => some r
          | none => stripCI ("index".data) rest
        else stripCI ("index".data) rest
      | [] => stripCI ("index".data) rest
    match afterIdx with
    | none => none
    | some r1 =>
      match dropSpaces r1 with
      | c :: r3 =>
        if c = '=' then
          let p := takeDigits (dropSpaces r3)
          if p.1.isEmpty then none else some (digitsToNat p.1)
        else none
      | [] => none

/-- Attempt of `/маршрут\s*#\s*(\d+)/i` anchored at the start of `cs`. -/
def matchP2At (cs : List Char) : Option ℕ :=
  match stripCI ("маршрут".data) cs with
  | none => none
  | some r1 =>
    match dropSpaces r1 with
    | c :: r3 =>
      if c = '#' then
        let p := takeDigits (dropSpaces r3)
        if p.1.isEmpty then none else some (digitsToNat p.1)
      else none
    | [] => none

/-- Leftmost match: `String.prototype.match` tries the pattern at each
successive start position. -/
def firstMatch (f : List Char → Option ℕ) : List Char → Option ℕ
  | [] => f []
  | c :: rest =>
    match f (c :: rest) with
    | some n => some n
    | none => firstMatch f rest

/-- Embeds `const parseSuggestedIndex`: the `route_index = N`
pattern first, else the 1-based `маршрут #N` pattern converted to
0-based, else `null`. -/
def parseSuggestedIndex (txt : String) : Option ℤ :=
  match firstMatch matchP1At txt.data with
  | some n => some (n : ℤ)
  | none =>
    match firstMatch matchP2At txt.data with
    | some n => some ((n : ℤ) - 1)
    | none => none

/-- The suggestion recorded by `callGeminiAuto`:
`if (typeof idx === "number" && !Number.isNaN(idx) && idx >= 0 && idx < routes.length) setAiSuggestedIndex(idx)`. -/
def suggestionFor (txt : String) (routeCount : ℕ) : Option ℤ :=
  match parseSuggestedIndex txt with
  | some idx => if 0 ≤ idx ∧ idx < (routeCount : ℤ) then some idx else none
  | none => none

/-! ### Spec-side definition for the primary-route claim -/

/-- Modelled from the spec (§4.5, §8): the primary route is "the
globally minimum-duration route, ties broken by lowest index" — the
least index whose duration is a global minimum of the set. -/
def firstMinIdx (list : List OSRMRoute) : ℕ :=
  list.findIdx (fun r => decide (∀ s ∈ list, r.duration ≤ s.duration))

/-! ### Concrete sample values used by witnesses and counterexamples -/

/-- A degenerate route carrying only a duration (empty geometry/legs). -/
def flatRoute (dur : ℚ) : OSRMRoute := ⟨[], 0, dur, []⟩

/-- A six-route list whose fastest element sits at index 5. -/
def sixRoutes : List OSRMRoute :=
  [flatRoute 600, flatRoute 600, flatRoute 600, flatRoute 600, flatRoute 600,
   flatRoute 100]

/-- A three-route list with a duration tie at indices 1 and 2. -/
def routes3 : List OSRMRoute := [flatRoute 650, flatRoute 600, flatRoute 600]

/-- A primary route view at index 0. -/
def primView : RouteView := ⟨"route-0", 0, [], 100, 100, "#0A84FF", true, []⟩

/-- A non-primary route view at index 1. -/
def altView : RouteView := ⟨"route-1", 1, [], 100, 200, "#32D74B", false, []⟩

/-- A non-primary route view at index 2. -/
def altView2 : RouteView := ⟨"route-2", 2, [], 100, 300, "#FF9F0A", false, []⟩

/-- The Stage-1 message of the HTTP-429 branch. -/
def overloadedMsg : String := "Демо-сервер перегружен (429). Повторите позже."

end Daryn

namespace Daryn

/-! ### Claim C1 — `fetchFiveRoutes` accumulation invariants -/

/-- Stage-1 loop invariant: the seen set tracks the signatures of the
output (in order), the signatures stay pairwise distinct, and the loop
appends a subsequence of its input to the output. -/
theorem stage1Loop_spec (rs : List OSRMRoute) :
    ∀ acc : FetchAcc, acc.seen = acc.out.map sigForRoute → acc.seen.Nodup →
      ∃ t, (stage1Loop rs acc).out = acc.out ++ t ∧ t.Sublist rs ∧
        (stage1Loop rs acc).seen = (stage1Loop rs acc).out.map sigForRoute ∧
        (stage1Loop rs acc).seen.Nodup := by
  induction rs with
  | nil =>
    intro acc h1 h2
    exact ⟨[], by simp [stage1Loop], List.nil_sublist _,
      by simpa [stage1Loop] using h1, by simpa [stage1Loop] using h2⟩
  | cons r rest ih =>
    intro acc h1 h2
    by_cases hmem : sigForRoute r ∈ acc.seen
    · simp only [stage1Loop, if_pos hmem]
      obtain ⟨t, ht1, ht2, ht3, ht4⟩ := ih acc h1 h2
      exact ⟨t, ht1, ht2.cons r, ht3, ht4⟩
    · have h1' : (acc.seen ++ [sigForRoute r])
          = (acc.out ++ [r]).map sigForRoute := by simp [h1]
      have h2' : (acc.seen ++ [sigForRoute r]).Nodup := by
        simp [List.nodup_append, h2, hmem]
      by_cases hlen : 5 ≤ (acc.out ++ [r]).length
      · simp only [stage1Loop, if_neg hmem, if_pos hlen]
        exact ⟨[r], rfl, (List.nil_sublist rest).cons₂ r, h1', h2'⟩
      · simp only [stage1Loop, if_neg hmem, if_neg hlen]
        obtain ⟨t, ht1, ht2, ht3, ht4⟩ := ih ⟨acc.out ++ [r], acc.seen ++ [sigForRoute r]⟩ h1' h2'
        refine ⟨r :: t, ?_, ht2.cons₂ r, ht3, ht4⟩
        rw [ht1]
        simp

/-- Stage-2/3 loop invariant, with the appended subsequence drawn from
the stream of accepted-shape via candidates. -/
theorem viaLoop_spec (vs : List ViaResp) :
    ∀ acc : FetchAcc, acc.seen = acc.out.map sigForRoute → acc.seen.Nodup →
      ∃ t, (viaLoop vs acc).out = acc.out ++ t ∧
        t.Sublist (vs.filterMap viaCandidate) ∧
        (viaLoop vs acc).seen = (viaLoop vs acc).out.map sigForRoute ∧
        (viaLoop vs acc).seen.Nodup := by
  induction vs with
  | nil =>
    intro acc h1 h2
    exact ⟨[], by simp [viaLoop], List.nil_sublist _,
      by simpa [viaLoop] using h1, by simpa [viaLoop] using h2⟩
  | cons v rest ih =>
    intro acc h1 h2
    by_cases hfull : 5 ≤ acc.out.length
    · simp only [viaLoop, if_pos hfull]
      exact ⟨[], by simp, List.nil_sublist _, h1, h2⟩
    · cases hv : viaCandidate v with
      | none =>
        simp only [viaLoop, if_neg hfull, hv]
        obtain ⟨t, ht1, ht2, ht3, ht4⟩ := ih acc h1 h2
        refine ⟨t, ht1, ?_, ht3, ht4⟩
        rw [List.filterMap_cons_none hv]
        exact ht2
      | some r =>
        rw [List.filterMap_cons_some hv] at *
        by_cases hmem : sigForRoute r ∈ acc.seen
        · simp only [viaLoop, if_neg hfull, hv, if_pos hmem]
          obtain ⟨t, ht1, ht2, ht3, ht4⟩ := ih acc h1 h2
          exact ⟨t, ht1, ht2.cons r, ht3, ht4⟩
        · simp only [viaLoop, if_neg hfull, hv, if_neg hmem]
          have h1' : (acc.seen ++ [sigForRoute r])
              = (acc.out ++ [r]).map sigForRoute := by simp [h1]
          have h2' : (acc.seen ++ [sigForRoute r]).Nodup := by
            simp [List.nodup_append, h2, hmem]
          obtain ⟨t, ht1, ht2, ht3, ht4⟩ :=
            ih ⟨acc.out ++ [r], acc.seen ++ [sigForRoute r]⟩ h1' h2'
          refine ⟨r :: t, ?_, ht2.cons₂ r, ht3, ht4⟩
          rw [ht1]
          simp

/-- Claim C1: for any responses, the accumulated route list of
`fetchFiveRoutes` has length at most 5, no two entries share a
`sigForRoute` signature, and the entries appear in first-seen (arrival)
order — the list is a subsequence of the arrival stream. -/
theorem fetchFiveRoutes_unique_bounded (s1 : S1Result) (v2 v3 : List ViaResp) :
    (fetchFiveRoutes s1 v2 v3).1.length ≤ 5 ∧
    ((fetchFiveRoutes s1 v2 v3).1.map sigForRoute).Nodup ∧
    (fetchFiveRoutes s1 v2 v3).1.Sublist (fetchArrivals s1 v2 v3) := by
  obtain ⟨t1, h11, h12, h13, h14⟩ :=
    stage1Loop_spec (stage1Routes s1) ⟨[], []⟩ rfl List.nodup_nil
  set acc1 := stage1Loop (stage1Routes s1) ⟨[], []⟩ with hacc1
  have hsub1 : acc1.out.Sublist (stage1Routes s1) := by
    rw [h11]; simpa using h12
  have harr1 : (stage1Routes s1).Sublist (fetchArrivals s1 v2 v3) := by
    unfold fetchArrivals
    exact (List.sublist_append_left _ _).trans (List.sublist_append_left _ _)
  by_cases h5 : 5 ≤ acc1.out.length
  · have hres : (fetchFiveRoutes s1 v2 v3).1 = acc1.out.take 5 := by
      simp only [fetchFiveRoutes, ← hacc1]
      rw [if_pos h5]
    rw [hres]
    refine ⟨List.length_take_le 5 acc1.out, ?_, ?_⟩
    · have hnd : (acc1.out.map sigForRoute).Nodup := h13 ▸ h14
      exact hnd.sublist ((List.take_sublist 5 _).map _)
    · exact (List.take_sublist 5 _).trans (hsub1.trans harr1)
  · obtain ⟨t2, h21, h22, h23, h24⟩ := viaLoop_spec v2 acc1 h13 h14
    set acc2 := viaLoop v2 acc1 with hacc2
    by_cases h5b : acc2.out.length < 5
    · obtain ⟨t3, h31, h32, h33, h34⟩ := viaLoop_spec v3 acc2 h23 h24
      have hres : (fetchFiveRoutes s1 v2 v3).1 = (viaLoop v3 acc2).out.take 5 := by
        simp only [fetchFiveRoutes, ← hacc1, ← hacc2]
        rw [if_neg h5, if_pos h5b]
      have hout : (viaLoop v3 acc2).out = t1 ++ t2 ++ t3 := by
        rw [h31, h21, h11]
        simp
      rw [hres]
      refine ⟨List.length_take_le 5 _, ?_, ?_⟩
      · have hnd : ((viaLoop v3 acc2).out.map sigForRoute).Nodup := h33 ▸ h34
        exact hnd.sublist ((List.take_sublist 5 _).map _)
      · refine (List.take_sublist 5 _).trans ?_
        rw [hout]
        unfold fetchArrivals
        exact (h12.append h22).append h32
    · have hres : (fetchFiveRoutes s1 v2 v3).1 = acc2.out.take 5 := by
        simp only [fetchFiveRoutes, ← hacc1, ← hacc2]
        rw [if_neg h5, if_neg h5b]
      have hout : acc2.out = t1 ++ t2 := by
        rw [h21, h11]
        simp
      rw [hres]
      refine ⟨List.length_take_le 5 _, ?_, ?_⟩
      · have hnd : (acc2.out.map sigForRoute).Nodup := h23 ▸ h24
        exact hnd.sublist ((List.take_sublist 5 _).map _)
      · refine (List.take_sublist 5 _).trans ?_
        rw [hout]
        unfold fetchArrivals
        exact (h12.append h22).trans (List.sublist_append_left _ _)

/-! ### Claim C2 — primary-route selection in `mapToViews` -/

/-- A two-element sublist of a cons either starts at the head or lies in
the tail. -/
theorem pair_sublist_cons {α : Type} {x y a : α} {t : List α}
    (hs : [x, y].Sublist (a :: t)) :
    (x = a ∧ [y].Sublist t) ∨ [x, y].Sublist t := by
  cases hs with
  | cons _ h => exact Or.inr h
  | cons₂ _ h => exact Or.inl ⟨rfl, h⟩

/-- The order `durLE` is transitive. -/
theorem durLE_trans : ∀ a b c : ℕ × ℚ,
    durLE a b = true → durLE b c = true → durLE a c = true := by
  intro a b c hab hbc
  simp only [durLE, decide_eq_true_eq] at *
  exact le_trans hab hbc

/-- The order `durLE` is total. -/
theorem durLE_total : ∀ a b : ℕ × ℚ, (durLE a b || durLE b a) = true := by
  intro a b
  simp only [durLE, Bool.or_eq_true, decide_eq_true_eq]
  exact le_total a.2 b.2

/-- Length of the index/duration pair list. -/
theorem durPairs_length (l : List OSRMRoute) :
    (durPairs l).length = l.length := by
  simp [durPairs]

/-- The `j`-th index/duration pair. -/
theorem durPairs_getElem (l : List OSRMRoute) (j : ℕ) (hj : j < l.length)
    (hj2 : j < (durPairs l).length) :
    (durPairs l)[j] = (j, l[j].duration) := by
  simp [durPairs]

/-- The `j`-th index/duration pair, `getElem?` form. -/
theorem durPairs_getElem? (l : List OSRMRoute) (j : ℕ) (hj : j < l.length) :
    (durPairs l)[j]? = some (j, l[j].duration) := by
  rw [List.getElem?_eq_some_iff]
  exact ⟨by rw [durPairs_length]; exact hj,
    durPairs_getElem l j hj (by rw [durPairs_length]; exact hj)⟩

/-- The index/duration pairs are pairwise distinct (distinct indices). -/
theorem durPairs_nodup (l : List OSRMRoute) : (durPairs l).Nodup := by
  have hm : (durPairs l).map Prod.fst = List.range l.length := by
    simp only [durPairs, List.map_map]
    have hc : (Prod.fst ∘ fun p : ℕ × OSRMRoute => (p.1, p.2.duration))
        = Prod.fst := rfl
    rw [hc, List.enum_map_fst]
  exact List.Nodup.of_map Prod.fst (hm ▸ List.nodup_range l.length)

/-- For a non-empty list, `bestIdx` (the head of the stable sort by
duration) is in range and equals the least index attaining the global
minimum duration — the spec-side `firstMinIdx`. -/
theorem bestIdxOf_spec (l : List OSRMRoute) (hl : l ≠ []) :
    bestIdxOf l < l.length ∧ bestIdxOf l = firstMinIdx l := by
  have hperm := List.mergeSort_perm (durPairs l) durLE
  have hsorted := List.sorted_mergeSort durLE_trans durLE_total (durPairs l)
  cases hms : (durPairs l).mergeSort durLE with
  | nil =>
    exfalso
    have hlen := hperm.length_eq
    rw [hms, durPairs_length] at hlen
    simp only [List.length_nil] at hlen
    exact hl (List.length_eq_zero.mp hlen.symm)
  | cons h0 t =>
    have hmem : h0 ∈ durPairs l := by
      have hx : h0 ∈ (durPairs l).mergeSort durLE := by
        rw [hms]; exact List.mem_cons_self _ _
      exact hperm.mem_iff.mp hx
    obtain ⟨p, hp, hfp⟩ := List.mem_map.mp hmem
    obtain ⟨hplt, hpget⟩ := List.getElem?_eq_some_iff.mp
      (List.mem_enum_iff_getElem?.mp hp)
    obtain ⟨i0, hi0lt, hi0get⟩ :
        ∃ i, ∃ h : i < l.length, h0 = (i, l[i].duration) :=
      ⟨p.1, hplt, by rw [← hfp, hpget]⟩
    subst hi0get
    have hmin : ∀ s ∈ l, l[i0].duration ≤ s.duration := by
      intro s hs
      obtain ⟨j, hj, hjs⟩ := List.mem_iff_getElem.mp hs
      have hpj : (j, l[j].duration) ∈ durPairs l := by
        have hj2 : j < (durPairs l).length := by
          rw [durPairs_length]; exact hj
        rw [← durPairs_getElem l j hj hj2]
        exact List.getElem_mem hj2
      have hpm : (j, l[j].duration) ∈ (durPairs l).mergeSort durLE :=
        hperm.mem_iff.mpr hpj
      rw [hms] at hpm
      rcases List.mem_cons.mp hpm with heq | hmt
      · have hd := congrArg Prod.snd heq
        simp only at hd
        rw [← hjs, hd]
      · have hle2 := (List.pairwise_cons.mp (hms ▸ hsorted)).1 _ hmt
        simp only [durLE, decide_eq_true_eq] at hle2
        rw [← hjs]
        exact hle2
    have hfirst : ∀ j (hj : j < l.length), j < i0 →
        l[j].duration ≠ l[i0].duration := by
      intro j hj hjlt hdur
      have hjplen : j < (durPairs l).length := by
        rw [durPairs_length]; exact hj
      have hdrop : (durPairs l).drop j
          = (j, l[j].duration) :: (durPairs l).drop (j + 1) := by
        rw [List.drop_eq_getElem_cons hjplen, durPairs_getElem l j hj hjplen]
      have hidx : j + 1 + (i0 - (j + 1)) = i0 := by omega
      have hmemdrop : (i0, l[i0].duration) ∈ (durPairs l).drop (j + 1) := by
        have hq : ((durPairs l).drop (j + 1))[i0 - (j + 1)]?
            = some (i0, l[i0].duration) := by
          rw [List.getElem?_drop, hidx]
          exact durPairs_getElem? l i0 hi0lt
        obtain ⟨hlt2, hget2⟩ := List.getElem?_eq_some_iff.mp hq
        exact hget2 ▸ List.getElem_mem hlt2
      have hsubpair : [(j, l[j].duration),
          (i0, l[i0].duration)].Sublist (durPairs l) := by
        have hone : [(i0, l[i0].duration)].Sublist
            ((durPairs l).drop (j + 1)) := List.singleton_sublist.mpr hmemdrop
        have htwo : [(j, l[j].duration),
            (i0, l[i0].duration)].Sublist ((durPairs l).drop j) := by
          rw [hdrop]
          exact hone.cons₂ _
        exact htwo.trans (List.drop_sublist j _)
      have hle : durLE (j, l[j].duration)
          (i0, l[i0].duration) = true := by
        simp only [durLE, decide_eq_true_eq]
        exact le_of_eq hdur
      have hstable :=
        List.mergeSort_stable_pair durLE_trans durLE_total hle hsubpair
      rw [hms] at hstable
      have hndms : ((durPairs l).mergeSort durLE).Nodup :=
        hperm.nodup_iff.mpr (durPairs_nodup l)
      rw [hms] at hndms
      have hnotin := (List.nodup_cons.mp hndms).1
      rcases pair_sublist_cons hstable with ⟨heq, _⟩ | hsub2
      · have hji := congrArg Prod.fst heq
        simp only at hji
        omega
      · exact hnotin (hsub2.subset (by simp))
    have hbest : bestIdxOf l = i0 := by
      simp [bestIdxOf, hms]
    have hfmi : firstMinIdx l = i0 := by
      rw [firstMinIdx]
      refine (List.findIdx_eq hi0lt).mpr ⟨?_, ?_⟩
      · simp only [decide_eq_true_eq]
        intro s hs
        exact hmin s hs
      · intro j hji
        simp only [decide_eq_false_iff_not]
        intro hall
        have hjl : j < l.length := lt_trans hji hi0lt
        have h1 : l[j].duration ≤ l[i0].duration :=
          hall _ (List.getElem_mem hi0lt)
        have h2 : l[i0].duration ≤ l[j].duration :=
          hmin _ (List.getElem_mem hjl)
        exact hfirst j hjl hji (le_antisymm h1 h2)
    exact ⟨hbest ▸ hi0lt, by rw [hbest, hfmi]⟩

/-- Filtering the mapped views for `isPrimary` and reading the indices
yields exactly the best index when it is in range. -/
theorem enumFrom_primary_filter (b : ℕ) (l' : List OSRMRoute) :
    ∀ s : ℕ,
      ((((List.enumFrom s l').map (toRouteView b)).filter
          (fun v => v.isPrimary)).map (fun v => v.index))
        = if s ≤ b ∧ b < s + l'.length then [b] else [] := by
  induction l' with
  | nil =>
    intro s
    rw [if_neg (by rintro ⟨hh1, hh2⟩; simp only [List.length_nil] at hh2; omega)]
    simp
  | cons r rest ih =>
    intro s
    rw [List.enumFrom_cons]
    simp only [List.map_cons, List.filter_cons]
    have hp : (toRouteView b (s, r)).isPrimary = (s == b) := rfl
    rw [hp]
    by_cases hsb : s = b
    · subst hsb
      simp only [beq_self_eq_true, if_true]
      rw [List.map_cons, ih (s + 1),
        if_neg (by rintro ⟨hh1, hh2⟩; omega),
        if_pos ⟨le_refl s, by simp only [List.length_cons]; omega⟩]
      rfl
    · have hne : (s == b) = false := by simp [hsb]
      rw [hne]
      simp only [Bool.false_eq_true, if_false]
      rw [ih (s + 1)]
      by_cases hcond : s + 1 ≤ b ∧ b < s + 1 + rest.length
      · obtain ⟨hc1, hc2⟩ := hcond
        rw [if_pos ⟨hc1, hc2⟩,
          if_pos ⟨by omega, by simp only [List.length_cons]; omega⟩]
      · rw [if_neg hcond,
          if_neg (by
            rintro ⟨hh1, hh2⟩
            simp only [List.length_cons] at hh2
            exact hcond ⟨by omega, by omega⟩)]

/-- Counterexample to claim C2 as universally stated: on a six-route
list whose fastest route sits at index 5, `mapToViews` truncates to five
views and marks none of them primary. -/
theorem mapToViews_counterexample :
    sixRoutes ≠ [] ∧
    ((mapToViews sixRoutes).1.filter (fun v => v.isPrimary)).length = 0 := by
  have hb : bestIdxOf sixRoutes = 5 := by
    rw [(bestIdxOf_spec sixRoutes (by simp [sixRoutes])).2]
    decide
  refine ⟨by simp [sixRoutes], ?_⟩
  have hm : (mapToViews sixRoutes).1
      = (sixRoutes.take 5).enum.map (toRouteView 5) := by
    simp [mapToViews, hb]
  rw [hm]
  decide

/-- Claim C2 as amended: for every non-empty candidate list of length at
most 5 (as produced by `fetchFiveRoutes`), exactly one mapped view has
`isPrimary = true`, and it is the view whose index is the least index of
globally minimum duration; that index is also the returned `bestIdx`. -/
theorem mapToViews_primary (l : List OSRMRoute) (h1 : l ≠ [])
    (h2 : l.length ≤ 5) :
    (((mapToViews l).1.filter (fun v => v.isPrimary)).map (fun v => v.index))
      = [firstMinIdx l] ∧
    ((mapToViews l).1.filter (fun v => v.isPrimary)).length = 1 ∧
    (mapToViews l).2 = firstMinIdx l := by
  obtain ⟨hlt, heq⟩ := bestIdxOf_spec l h1
  have htake : l.take 5 = l := List.take_of_length_le h2
  have hmapped : (mapToViews l).1
      = (List.enumFrom 0 l).map (toRouteView (bestIdxOf l)) := by
    simp [mapToViews, htake, List.enum_eq_enumFrom]
  have hfil0 : (((mapToViews l).1.filter (fun v => v.isPrimary)).map
      (fun v => v.index)) = [bestIdxOf l] := by
    rw [hmapped, enumFrom_primary_filter (bestIdxOf l) l 0,
      if_pos ⟨Nat.zero_le _, by simpa using hlt⟩]
  refine ⟨heq ▸ hfil0, ?_, by simp [mapToViews, heq]⟩
  have hlen := congrArg List.length hfil0
  simpa using hlen

/-- Witness for the amended C2: three routes with durations 650, 600,
600 — the primary is the unique view at index 1 (first of the tie). -/
theorem mapToViews_primary_witness :
    (((mapToViews routes3).1.filter (fun v => v.isPrimary)).map
        (fun v => v.index)) = [firstMinIdx routes3] ∧
    ((mapToViews routes3).1.filter (fun v => v.isPrimary)).length = 1 ∧
    (mapToViews routes3).2 = firstMinIdx routes3 :=
  mapToViews_primary routes3 (by simp [routes3]) (by simp [routes3])

/-! ### Claim C9 — selection-state transitions -/

/-- Claim C9: for every index `k` and every prior selection state,
`selectRouteOnly k` yields selectedIndex `k` with `showAllRoutes = false`,
and the show-all toggle flips `showAllRoutes` while leaving
`selectedIndex` unchanged. -/
theorem selectRouteOnly_toggleShowAll_spec (k : ℕ) (st : SelectionState) :
    (selectRouteOnly k st).selectedIndex = k ∧
    (selectRouteOnly k st).showAllRoutes = false ∧
    (toggleShowAll st).selectedIndex = st.selectedIndex ∧
    (toggleShowAll st).showAllRoutes = !st.showAllRoutes :=
  ⟨rfl, rfl, rfl, rfl⟩

/-! ### Claims C8 and C10 — auto-AI re-invocation suppression -/

/-- After any enabled firing of the auto-AI effect, the recorded
signature equals the signature of the (non-empty) current route set. -/
theorem fireAuto_records_sig (rs : List RouteView) (sel : ℕ) (st : AiState)
    (hne : rs ≠ []) :
    (fireAuto true rs sel st).1.lastSig = routesSignature rs := by
  have hlen : (rs.length == 0) = false := by
    simp [List.length_eq_zero, hne]
  simp only [fireAuto, Bool.not_true, Bool.false_or, hlen, Bool.false_eq_true,
    if_false]
  split
  · next heq => exact (beq_iff_eq.mp heq).symm
  · rfl

/-- Once the recorded signature matches the current route set, a firing
of the effect never issues a request, whatever the enabled flag or
selection. -/
theorem fireAuto_skip (e2 : Bool) (rs : List RouteView) (sel2 : ℕ)
    (st1 : AiState) (h : st1.lastSig = routesSignature rs) :
    (fireAuto e2 rs sel2 st1).2 = false := by
  cases e2 with
  | false => simp [fireAuto]
  | true =>
    by_cases hne : rs = []
    · subst hne; simp [fireAuto]
    · have hlen : (rs.length == 0) = false := by
        simp [List.length_eq_zero, hne]
      simp [fireAuto, hlen, h]

/-- Claim C8: triggering the summary bridge twice with an unchanged
route set issues exactly one outbound request — the first firing (from a
state whose recorded signature differs) issues it, the second is
suppressed because its signature equals the recorded one. -/
theorem fireAuto_twice_one_request (rs : List RouteView) (sel sel2 : ℕ)
    (st : AiState) (hne : rs ≠ []) (hsig : st.lastSig ≠ routesSignature rs) :
    (fireAuto true rs sel st).2 = true ∧
    (fireAuto true rs sel2 (fireAuto true rs sel st).1).2 = false := by
  have hlen : (rs.length == 0) = false := by
    simp [List.length_eq_zero, hne]
  have hrec := fireAuto_records_sig rs sel st hne
  constructor
  · have hne2 : (routesSignature rs == st.lastSig) = false :=
      beq_eq_false_iff_ne.mpr (fun h => hsig h.symm)
    simp only [fireAuto, Bool.not_true, Bool.false_or, hlen, Bool.false_eq_true,
      if_false, hne2]
  · exact fireAuto_skip true rs sel2 _ hrec

/-- Witness for C8 at a concrete one-route set and empty recorded
signature. -/
theorem fireAuto_twice_one_request_witness :
    (fireAuto true [primView] 0 ⟨""⟩).2 = true ∧
    (fireAuto true [primView] 1 (fireAuto true [primView] 0 ⟨""⟩).1).2 = false :=
  fireAuto_twice_one_request [primView] 0 1 ⟨""⟩ (by decide) (by decide)

/-- Claim C10: the suppression signature does not depend on the selected
index — the effect's outcome is invariant under the selection argument,
and once an enabled firing has run on a route set, a re-firing on the
same route set (for example caused by a selection change alone) never
issues a second request, for any enabled flag and any new selection. -/
theorem fireAuto_selection_independent (e e2 : Bool) (rs : List RouteView)
    (sel sel2 : ℕ) (st : AiState) :
    fireAuto e rs sel st = fireAuto e rs sel2 st ∧
    (fireAuto e2 rs sel2 (fireAuto true rs sel st).1).2 = false := by
  refine ⟨rfl, ?_⟩
  by_cases hne : rs = []
  · subst hne
    cases e2 <;> simp [fireAuto]
  · exact fireAuto_skip e2 rs sel2 _ (fireAuto_records_sig rs sel st hne)

/-! ### Claim C3 — z-order of route layers -/

/-- Counterexample to claim C3: with `showAllRoutes = true` and route 1
selected, the selected non-primary route (`altView`) gets `z = 1` while
the non-selected primary route (`primView`) gets `z = 2`, in both the
appearance computation and the sort key — so a selected non-primary
route is NOT layered above a non-selected primary route. -/
theorem zOrder_counterexample :
    (getRouteAppearance true 1 altView).z = 1 ∧
    (getRouteAppearance true 1 primView).z = 2 ∧
    zKey true 1 altView = 1 ∧
    zKey true 1 primView = 2 ∧
    ¬ (getRouteAppearance true 1 primView).z < (getRouteAppearance true 1 altView).z := by
  decide

/-- Claim C3 as amended: with `showAllRoutes = true` the derived z-order
ranks, highest to lowest: primary (selected or not) at level 2, then
selected-only at level 1, then other at level 0 — so a non-selected
primary route is layered above a selected non-primary route; with
`showAllRoutes = false` the sort key puts the selected route (the only
visible one) on top. -/
theorem zOrder_amended (sel : ℕ) (a b c : RouteView)
    (ha : a.isPrimary = true) (hb : b.isPrimary = false) (hbsel : b.index = sel)
    (hc : c.isPrimary = false) (hcsel : c.index ≠ sel) :
    (getRouteAppearance true sel a).z = 2 ∧
    (getRouteAppearance true sel b).z = 1 ∧
    (getRouteAppearance true sel c).z = 0 ∧
    zKey true sel a = 2 ∧
    zKey true sel b = 1 ∧
    zKey true sel c = 0 ∧
    zKey false sel b = 2 ∧
    zKey false sel c = 0 := by
  have hb' : (b.index == sel) = true := by simp [hbsel]
  have hc' : (c.index == sel) = false := by simp [hcsel]
  simp [getRouteAppearance, zKey, ha, hb, hb', hc, hc']

/-- Witness for the amended C3 at concrete routes (primary at index 0,
alternatives at indices 1 and 2, selection 1). -/
theorem zOrder_amended_witness :
    (getRouteAppearance true 1 primView).z = 2 ∧
    (getRouteAppearance true 1 altView).z = 1 ∧
    (getRouteAppearance true 1 altView2).z = 0 ∧
    zKey true 1 primView = 2 ∧
    zKey true 1 altView = 1 ∧
    zKey true 1 altView2 = 0 ∧
    zKey false 1 altView = 2 ∧
    zKey false 1 altView2 = 0 :=
  zOrder_amended 1 primView altView altView2 rfl rfl rfl rfl (by decide)

/-! ### Claim C4 — surfaced error after a failed fetch -/

/-- Counterexample to claim C4: when Stage 1 fails with the HTTP-429
message and every Stage-2/3 via request fails, the error text surfaced
after the fetch is the generic no-route message thrown by `fetchRoutes`,
not the original Stage-1 message. -/
theorem stage1Error_counterexample :
    fetchRoutesFinalError (.err overloadedMsg)
        (List.replicate 12 .fail) (List.replicate 12 .fail) = some noRouteMsg ∧
    noRouteMsg ≠ overloadedMsg := by
  decide

/-- Claim C4 as amended: if Stage 1 fails with an error and the overall
result is empty, the error text surfaced after the fetch completes is
the fixed no-route message, which overwrites the Stage-1 message; the
Stage-1 message is only held transiently (it is what `errorText` holds
right after `fetchFiveRoutes` returns, before the empty result is
detected). -/
theorem stage1Error_amended (msg : String) (v2 v3 : List ViaResp)
    (h : (fetchFiveRoutes (.err msg) v2 v3).1 = []) :
    fetchRoutesFinalError (.err msg) v2 v3 = some noRouteMsg ∧
    (fetchFiveRoutes (.err msg) v2 v3).2 = some msg := by
  constructor
  · simp [fetchRoutesFinalError, h]
  · simp only [fetchFiveRoutes, stage1Routes, stage1Loop]
    norm_num

/-- Witness for the amended C4: Stage 1 fails with message `"boom"` and
no via request returns anything. -/
theorem stage1Error_amended_witness :
    fetchRoutesFinalError (.err ("boom")) [] [] = some noRouteMsg ∧
    (fetchFiveRoutes (.err ("boom")) [] []).2 = some ("boom") :=
  stage1Error_amended ("boom") [] [] (by decide)

/-! ### Claim C5 — via-candidate generation -/

/-- The concrete via candidates for A=(0,0), B=(0,1). -/
theorem makeVia_example_eval :
    makeViaCandidates ⟨0, 0⟩ ⟨0, 1⟩ =
      [⟨3 / 1000, 1 / 2⟩, ⟨-(3 / 1000), 1 / 2⟩, ⟨0, 53 / 100⟩, ⟨0, 47 / 100⟩,
       ⟨3 / 1000, 53 / 100⟩, ⟨-(3 / 1000), 53 / 100⟩, ⟨3 / 1000, 47 / 100⟩,
       ⟨-(3 / 1000), 47 / 100⟩, ⟨9 / 2000, 1 / 2⟩, ⟨0, 109 / 200⟩,
       ⟨-(9 / 2000), 1 / 2⟩, ⟨0, 91 / 200⟩] := by
  simp only [makeViaCandidates]
  norm_num [min_def, max_def]

/-- Counterexample to claim C5's offset formula: for A=(0,0), B=(0,1)
the latitudinal offset of the first via candidate is `3/1000`, while
`min(fixed cap, 0.6 × latitude span)` is `min(0.03, 0.6·|0−0|) = 0` —
the code floors each axis span at `0.005` before scaling. -/
theorem makeVia_formula_counterexample :
    (makeViaCandidates ⟨0, 0⟩ ⟨0, 1⟩).head? = some ⟨3 / 1000, 1 / 2⟩ ∧
    (3 / 1000 : ℚ) ≠ min (3 / 100) (|(0 : ℚ) - 0| * (6 / 10)) := by
  constructor
  · rw [makeVia_example_eval, List.head?_cons]
  · norm_num [min_def]

/-- Claim C5 as amended: Stage 2 generates exactly 12 via candidates by
offsetting the midpoint of A and B — four cardinal, four diagonal, and
four 1.5×-magnitude cardinal variants — with per-axis offset magnitude
`min(0.03, 0.6 × max(0.005, span))`, i.e. the axis span floored at
0.005; in particular A=(0,0), B=(0,1) yields 12 candidates all distinct
from A and from B. -/
theorem makeVia_amended (a b : Coord) :
    (makeViaCandidates a b).length = 12 ∧
    ((makeViaCandidates a b).map (fun c =>
        (c.lat - (a.lat + b.lat) / 2, c.lon - (a.lon + b.lon) / 2)))
      = (let dLat := min (3 / 100) (max (5 / 1000) |a.lat - b.lat| * (6 / 10))
         let dLon := min (3 / 100) (max (5 / 1000) |a.lon - b.lon| * (6 / 10))
         [(dLat, 0), (-dLat, 0), (0, dLon), (0, -dLon),
          (dLat, dLon), (-dLat, dLon), (dLat, -dLon), (-dLat, -dLon),
          (dLat * (3 / 2), 0), (0, dLon * (3 / 2)),
          (-(dLat * (3 / 2)), 0), (0, -(dLon * (3 / 2)))]) ∧
    ∀ c ∈ makeViaCandidates ⟨0, 0⟩ ⟨0, 1⟩, c ≠ ⟨0, 0⟩ ∧ c ≠ ⟨0, 1⟩ := by
  refine ⟨rfl, ?_, ?_⟩
  · simp only [makeViaCandidates, List.map_cons, List.map_nil, List.cons.injEq,
      Prod.mk.injEq, and_true]
    norm_num
  · rw [makeVia_example_eval]
    intro c hc
    fin_cases hc <;> constructor <;>
      · intro h
        rw [Coord.mk.injEq] at h
        norm_num at h

/-- Witness for the amended C5 at A=(0,0), B=(0,1): twelve candidates,
and the first one differs from both endpoints. -/
theorem makeVia_amended_witness :
    (makeViaCandidates ⟨0, 0⟩ ⟨0, 1⟩).length = 12 ∧
    ((⟨3 / 1000, 1 / 2⟩ : Coord) ≠ ⟨0, 0⟩ ∧ (⟨3 / 1000, 1 / 2⟩ : Coord) ≠ ⟨0, 1⟩) :=
  ⟨(makeVia_amended ⟨0, 0⟩ ⟨0, 1⟩).1,
   (makeVia_amended ⟨0, 0⟩ ⟨0, 1⟩).2.2 ⟨3 / 1000, 1 / 2⟩
     (by rw [makeVia_example_eval]; simp)⟩

/-! ### Claim C6 — evenly spaced markers on a straight path -/

/-- Unfolding lemma for `expectedTargets` at a successor fuel value. -/
theorem expectedTargets_succ (total spacing : ℚ) (f : ℕ) (t : ℚ) :
    expectedTargets total spacing (f + 1) t =
      if t < total then t :: expectedTargets total spacing f (t + spacing)
      else [] := rfl

/-- The expected targets for total 1000, spacing 100, budget 400. -/
theorem expectedTargets_eval :
    expectedTargets 1000 100 400 100
      = [100, 200, 300, 400, 500, 600, 700, 800, 900] := by
  repeat (rw [expectedTargets_succ]; norm_num)

/-- On the two-entry cumulative array `[0, total]`, the bracketing index
stays `1` while the target has not passed `total`. -/
theorem advanceIdx_pair (total target : ℚ) (h : ¬ total < target) :
    advanceIdx [0, total] target 1 = 1 := by
  unfold advanceIdx
  simp [h]

/-- On a two-point polyline with cumulative array `[0, total]`, the
sampling loop emits exactly the expected covered distances. -/
theorem sampleLoop_pair (p q : XY) (total spacing : ℚ) :
    ∀ (fuel : ℕ) (target : ℚ) (out : List RouteMarker),
      ((sampleLoop [p, q] [0, total] total spacing fuel target 1 out).map
          (fun m => m.coveredDistance))
        = out.map (fun m => m.coveredDistance) ++
            expectedTargets total spacing fuel target := by
  intro fuel
  induction fuel with
  | zero => intro target out; simp [sampleLoop, expectedTargets]
  | succ f ih =>
    intro target out
    by_cases h : target < total
    · have hadv : advanceIdx [0, total] target 1 = 1 :=
        advanceIdx_pair total target (lt_asymm h)
      simp only [sampleLoop, if_pos h, hadv, List.length_cons,
        List.length_singleton, List.length_nil, expectedTargets_succ]
      rw [if_neg (by norm_num)]
      rw [ih]
      simp [if_pos h]
    · simp only [sampleLoop, if_neg h, expectedTargets_succ]
      simp [if_neg h]

/-- Claim C6: for a straight two-point polyline whose total (haversine)
length is 1000, sampling with spacing 100 and the default cap 400 yields
exactly 9 markers with covered distances 100, 200, …, 900, and no marker
at or beyond the total length. -/
theorem sampleEveryMeters_straight (p q : XY) (d : XY → XY → ℚ)
    (hd : d p q = 1000) :
    ((sampleEveryMeters d [p, q] 100 400).map (fun m => m.coveredDistance))
      = [100, 200, 300, 400, 500, 600, 700, 800, 900] ∧
    (sampleEveryMeters d [p, q] 100 400).length = 9 ∧
    ∀ m ∈ sampleEveryMeters d [p, q] 100 400,
      m.coveredDistance ≤ 900 ∧ m.coveredDistance ≠ 1000 := by
  have hcum : cumulativeDistances d [p, q] = [0, 1000] := by
    simp [cumulativeDistances, hd]
  have hmain : ((sampleEveryMeters d [p, q] 100 400).map
      (fun m => m.coveredDistance))
      = [100, 200, 300, 400, 500, 600, 700, 800, 900] := by
    have hgl : ([0, (1000 : ℚ)] : List ℚ).getLastD 0 = 1000 := rfl
    rw [sampleEveryMeters, if_neg (by norm_num)]
    simp only [hcum, hgl]
    rw [if_neg (by norm_num)]
    rw [sampleLoop_pair]
    simp [expectedTargets_eval]
  refine ⟨hmain, ?_, ?_⟩
  · have hlen := congrArg List.length hmain
    simpa using hlen
  · intro m hm
    have h2 : m.coveredDistance ∈
        ([100, 200, 300, 400, 500, 600, 700, 800, 900] : List ℚ) := by
      rw [← hmain]
      exact List.mem_map_of_mem _ hm
    simp only [List.mem_cons, List.not_mem_nil, or_false] at h2
    rcases h2 with h2 | h2 | h2 | h2 | h2 | h2 | h2 | h2 | h2 <;>
      rw [h2] <;> norm_num

/-- Witness for C6: a concrete two-point path with a metric giving total
length 1000. -/
theorem sampleEveryMeters_straight_witness :
    ((sampleEveryMeters (fun _ _ => 1000) [⟨0, 0⟩, ⟨0, 9⟩] 100 400).map
        (fun m => m.coveredDistance))
      = [100, 200, 300, 400, 500, 600, 700, 800, 900] ∧
    (sampleEveryMeters (fun _ _ => 1000) [⟨0, 0⟩, ⟨0, 9⟩] 100 400).length = 9 ∧
    ∀ m ∈ sampleEveryMeters (fun _ _ => 1000) [⟨0, 0⟩, ⟨0, 9⟩] 100 400,
      m.coveredDistance ≤ 900 ∧ m.coveredDistance ≠ 1000 :=
  sampleEveryMeters_straight ⟨0, 0⟩ ⟨0, 9⟩ (fun _ _ => 1000) rfl

/-! ### Claim C7 — suggested-index parsing -/

/-- Claim C7: any recorded suggestion lies in `[0, routeCount)` and
comes from `parseSuggestedIndex`; with 3 routes and the text
`"route_index = 7"` no suggestion is recorded; the explicit
`route_index = N` pattern wins over the localized `маршрут #N` pattern
even when the latter occurs earlier in the text; the localized pattern
is 1-based and converted to 0-based. -/
theorem suggestion_in_range (txt : String) (count : ℕ) (i : ℤ)
    (h : suggestionFor txt count = some i) :
    (0 ≤ i ∧ i < (count : ℤ) ∧ parseSuggestedIndex txt = some i) ∧
    suggestionFor ("route_index = 7") 3 = none ∧
    parseSuggestedIndex ("маршрут # 3, а также route_index = 0") = some 0 ∧
    parseSuggestedIndex ("лучший маршрут #2") = some 1 := by
  refine ⟨?_, by decide, by decide, by decide⟩
  cases hp : parseSuggestedIndex txt with
  | none => simp [suggestionFor, hp] at h
  | some idx =>
    simp only [suggestionFor, hp, Option.ite_none_right_eq_some,
      Option.some.injEq] at h
    obtain ⟨⟨h0, h1⟩, rfl⟩ := h
    exact ⟨h0, h1, rfl⟩

/-- Witness for C7: the text `"route_index = 1"` with 3 routes records
suggestion 1. -/
theorem suggestion_in_range_witness :
    (0 ≤ (1 : ℤ) ∧ (1 : ℤ) < (3 : ℕ) ∧
      parseSuggestedIndex ("route_index = 1") = some 1) ∧
    suggestionFor ("route_index = 7") 3 = none ∧
    parseSuggestedIndex ("маршрут # 3, а также route_index = 0") = some 0 ∧
    parseSuggestedIndex ("лучший маршрут #2") = some 1 :=
  suggestion_in_range ("route_index = 1") 3 1 (by decide)

end Daryn
